import Mathlib

/-!
Shallow embedding of the multi-stage retrieval pipeline of the frappeDocChat
server (TypeScript sources under src/server/src), together with proofs about
it.  Numbers that are JavaScript floats are modelled as rationals; JavaScript
strings are modelled as Lean strings (ASCII-faithful); fallible language-model
calls are modelled as explicit oracle inputs (the parsed response, or a marker
for a thrown/unparseable response), so that every code path of the embedded
functions is the corresponding path of the source.
-/

set_option maxRecDepth 2000000

namespace FrappeDocChat

/-! ## JavaScript string primitives -/

/-- Whitespace test matching the characters the queries at hand can contain
(JS regex class backslash-s restricted to ASCII whitespace). -/
def isWsChar (c : Char) : Bool :=
  c = ' ' || c = '\t' || c = '\n' || c = '\r' || c = '\x0b' || c = '\x0c'

/-- Helper for `splitWs`: `inRun` says whether the previous character was
part of a whitespace run whose word has already been emitted; `cur` is the
current word accumulated in reverse. -/
def splitWsAux : Bool → List Char → List Char → List (List Char)
  | _, cur, [] => [cur.reverse]
  | inRun, cur, c :: rest =>
    if isWsChar c then
      if inRun then splitWsAux true cur rest
      else cur.reverse :: splitWsAux true [] rest
    else splitWsAux false (c :: cur) rest

/-- JS `s.split(/\s+/)`: splits on maximal whitespace runs; a leading
(resp. trailing) run yields a leading (resp. trailing) empty element, and the
result is never the empty list. -/
def splitWs (s : List Char) : List (List Char) := splitWsAux false [] s

/-- JS `s.includes(sub)` (substring containment). -/
def jsIncludes (s sub : String) : Bool := decide (sub.toList <:+: s.toList)

/-- JS `s.toLowerCase()` on the ASCII strings the pipeline handles:
character-wise lowering (extensionally `String.toLower`, which maps
`Char.toLower` over the characters). -/
def jsToLower (s : String) : String := String.mk (s.toList.map Char.toLower)

/-- JS `arr.join(sep)`. -/
def jsJoin (sep : String) (l : List String) : String := String.intercalate sep l

/-! ## The stable descending sort used by every `Array.prototype.sort` call
in the pipeline.  Every such call sorts by a numeric key descending, via a
comparator of the shape `(a, b) => key(b) - key(a)`; `Array.prototype.sort`
is specified to be stable, so its result is the unique stable descending
ordering, which insertion sort below computes. -/

/-- Insert `x` into `l` in front of the first element whose key is not larger
than `x`'s key (so on ties the inserted — originally earlier — element wins,
which is stability for insertion sort). -/
def insD {α : Type} (key : α → ℚ) (x : α) : List α → List α
  | [] => [x]
  | y :: ys => if key y ≤ key x then x :: y :: ys else y :: insD key x ys

/-- Stable sort, descending by `key`. -/
def sortD {α : Type} (key : α → ℚ) : List α → List α
  | [] => []
  | x :: xs => insD key x (sortD key xs)

/-! ## MultiQueryService.deduplicateResults (src/server/src — MultiQueryService) -/

/-- Abstraction of the `metadata.processedAt` handling of
`ResultRankingService.calculateRecency`: either there is no `processedAt`
(falsy metadata or field), or the date string parses to an invalid date
(whose `getTime()` is NaN, so every age comparison is false), or it parses
and the record age in days is a number. -/
inductive RecencyInfo : Type
  | noDate : RecencyInfo
  | invalidDate : RecencyInfo
  | daysAgo (d : ℚ) : RecencyInfo
deriving DecidableEq

/-- The `SearchResult` record of multiQueryService.ts.  `metadata` is retained
only through the `RecencyInfo` abstraction, which is all the pipeline reads
from it. -/
structure SearchResult : Type where
  id : String
  filename : String
  title : String
  content : String
  similarity : ℚ
  sourceUrl : Option String
  metadata : RecencyInfo
  searchStrategy : String
  queryUsed : String
deriving DecidableEq

/-- The deduplication key of `deduplicateResults`: filename concatenated with
an underscore and the first 100 characters of the content. -/
def dedupKey (r : SearchResult) : String :=
  r.filename ++ "_" ++ r.content.take 100

/-- The replacement step of the dedup loops: find the first entry with the
same key and replace it when the incoming value is strictly larger
(`result.similarity > deduplicated[existingIndex].similarity`, and the
analogous ranking-score comparison in `mergeIterativeResults`). -/
def replaceIfGreater {α : Type} (key : α → String) (val : α → ℚ) (r : α) :
    List α → List α
  | [] => []
  | x :: xs =>
    if key x == key r then
      if val x < val r then r :: xs else x :: xs
    else x :: replaceIfGreater key val r xs

/-- The accumulation loop shared by `MultiQueryService.deduplicateResults`
and `IterativeRefinementService.mergeIterativeResults`: walk the input,
append first occurrences of a key, and otherwise keep the entry with the
larger value. -/
def dedupLoop {α : Type} (key : α → String) (val : α → ℚ) :
    List α → List α → List α
  | [], acc => acc
  | r :: rest, acc =>
    if acc.any (fun x => key x == key r) then
      dedupLoop key val rest (replaceIfGreater key val r acc)
    else
      dedupLoop key val rest (acc ++ [r])

/-- `MultiQueryService.deduplicateResults`: sort by similarity descending,
then keep one entry per (filename, first-100-chars) key. -/
def deduplicateResults (results : List SearchResult) : List SearchResult :=
  dedupLoop dedupKey (fun r => r.similarity) (sortD (fun r => r.similarity) results) []

/-! ## ResultRankingService (src/server/src/services/resultRankingService.ts) -/

/-- The seven ranking factors, as computed by `calculateRankingFactors`. -/
structure RankingFactors : Type where
  semanticSimilarity : ℚ
  titleRelevance : ℚ
  contentQuality : ℚ
  documentType : ℚ
  recency : ℚ
  sourceReliability : ℚ
  queryAlignment : ℚ
deriving DecidableEq

/-- The per-factor weights of `RankingConfig.weights`. -/
structure RankingWeights : Type where
  semanticSimilarity : ℚ
  titleRelevance : ℚ
  contentQuality : ℚ
  documentType : ℚ
  recency : ℚ
  sourceReliability : ℚ
  queryAlignment : ℚ
deriving DecidableEq

/-- The multiplicative boosts of `RankingConfig.boosts`. -/
structure RankingBoosts : Type where
  officialDocs : ℚ
  tutorials : ℚ
  apiDocs : ℚ
  examples : ℚ
deriving DecidableEq

/-- `RankingConfig`.  `rankResults` below takes the already-merged
configuration (the TS code merges a caller-supplied `Partial<RankingConfig>`
field-by-field over `defaultConfig`). -/
structure RankingConfig : Type where
  weights : RankingWeights
  boosts : RankingBoosts
deriving DecidableEq

/-- `ResultRankingService.defaultConfig`. -/
def defaultConfig : RankingConfig :=
  ⟨⟨0.35, 0.20, 0.15, 0.10, 0.05, 0.10, 0.05⟩, ⟨1.2, 1.1, 1.15, 1.05⟩⟩

/-- The `RankedResult` record: a `SearchResult` extended with the ranking
score, its factors and the original (pre-sort) index. -/
structure RankedResult extends SearchResult where
  rankingScore : ℚ
  rankingFactors : RankingFactors
  originalRank : ℕ
deriving DecidableEq

/-- The match counts of the five code-example regex patterns of
`calculateContentQuality` (a count of 0 models a null `String.match`
result, which the code skips — it contributes the same 0). -/
structure CodeMatchCounts : Type where
  fencedBlocks : ℕ
  inlineSpans : ℕ
  defDecls : ℕ
  classDecls : ℕ
  functionDecls : ℕ
deriving DecidableEq

/-- The match counts of the four structure regex patterns of
`calculateContentQuality` (headers, bullet lists, numbered lists,
paragraph breaks). -/
structure StructureMatchCounts : Type where
  headers : ℕ
  bullets : ℕ
  numbered : ℕ
  paragraphs : ℕ
deriving DecidableEq

/-- Oracle for the regex match counting done by JS `content.match(pattern)`
inside `calculateContentQuality`; the counting itself is abstracted, and
every theorem below holds for every such oracle. -/
structure MatchCountOracle : Type where
  code : String → CodeMatchCounts
  structural : String → StructureMatchCounts

namespace ResultRankingService

/-- `ResultRankingService.calculateTitleRelevance`. -/
def calculateTitleRelevance (title query : String) : ℚ :=
  let titleLower := jsToLower title
  let queryLower := jsToLower query
  let queryWords := splitWs queryLower.toList
  let totalWords : ℕ := queryWords.length
  let exactScore : ℚ := if jsIncludes titleLower queryLower then 0.8 else 0
  let wordMatches : ℕ :=
    (queryWords.filter (fun w => w.length > 2 && decide (w <:+: titleLower.toList))).length
  let score : ℚ := exactScore + ((wordMatches : ℚ) / (totalWords : ℚ)) * 0.6
  let lengthPenalty : ℚ := max 0 (1 - ((title.length : ℚ) - 50) / 200)
  min 1 (score * lengthPenalty)

/-- `ResultRankingService.calculateContentQuality`, with the regex match
counts supplied by the oracle. -/
def calculateContentQuality (cc : CodeMatchCounts) (sc : StructureMatchCounts)
    (content : String) : ℚ :=
  let length := content.length
  let lengthScore : ℚ :=
    if 100 < length ∧ length < 2000 then 0.2
    else if 2000 ≤ length ∧ length < 5000 then 0.1
    else 0
  let codeScore : ℚ :=
    min 0.1 ((cc.fencedBlocks : ℚ) * 0.02) + min 0.1 ((cc.inlineSpans : ℚ) * 0.02) +
    min 0.1 ((cc.defDecls : ℚ) * 0.02) + min 0.1 ((cc.classDecls : ℚ) * 0.02) +
    min 0.1 ((cc.functionDecls : ℚ) * 0.02)
  let structureScore : ℚ :=
    min 0.05 ((sc.headers : ℚ) * 0.01) + min 0.05 ((sc.bullets : ℚ) * 0.01) +
    min 0.05 ((sc.numbered : ℚ) * 0.01) + min 0.05 ((sc.paragraphs : ℚ) * 0.01)
  min 1 (0.5 + lengthScore + codeScore + structureScore)

/-- `ResultRankingService.calculateDocumentType`. -/
def calculateDocumentType (filename content : String) : ℚ :=
  let fl := jsToLower filename
  let cl := jsToLower content
  if jsIncludes fl ("api") || jsIncludes cl ("api") then 0.9
  else if jsIncludes fl ("tutorial") || jsIncludes cl ("step") || jsIncludes cl ("how to") then 0.85
  else if jsIncludes fl ("example") || jsIncludes cl ("example") then 0.8
  else if jsIncludes fl ("config") || jsIncludes fl ("setup") || jsIncludes cl ("configuration") then 0.75
  else if jsIncludes fl ("reference") || jsIncludes fl ("docs") then 0.7
  else 0.6

/-- `ResultRankingService.calculateRecency`.  With no `processedAt` the
score is 0.5; an invalid date makes `daysDiff` NaN so every bucket
comparison is false and the final 0.6 is returned; otherwise the age in
days selects the bucket. -/
def calculateRecency : RecencyInfo → ℚ
  | .noDate => 0.5
  | .invalidDate => 0.6
  | .daysAgo d =>
    if d < 30 then 1
    else if d < 90 then 0.9
    else if d < 180 then 0.8
    else if d < 365 then 0.7
    else 0.6

/-- `ResultRankingService.calculateSourceReliability`.  JS `!s` is true on
both `undefined` and the empty string, and `a || b` picks the first
non-empty string. -/
def calculateSourceReliability (sourceUrl : Option String) (filename : String) : ℚ :=
  let urlFalsy : Bool := match sourceUrl with | none => true | some u => u.isEmpty
  if urlFalsy ∧ filename.isEmpty then 0.5
  else
    let source :=
      (match sourceUrl with
        | some u => if u.isEmpty then filename else u
        | none => filename) |> jsToLower
    if jsIncludes source ("frappeframework.com") || jsIncludes source ("frappe.io") then 1
    else if jsIncludes source ("framework_user") then 0.95
    else if jsIncludes source ("api") then 0.9
    else if jsIncludes source ("tutorial") then 0.85
    else 0.7

/-- `ResultRankingService.calculateStringSimilarity` (word-overlap
similarity; also the body of
`IterativeRefinementService.calculateQuerySimilarity`, which is textually
identical). -/
def calculateStringSimilarity (str1 str2 : String) : ℚ :=
  let words1 := splitWs str1.toList
  let words2 := splitWs str2.toList
  let commonWords :=
    words1.filter (fun w => words2.any (fun v => decide (w <:+: v) || decide (v <:+: w)))
  (commonWords.length : ℚ) / ((max words1.length words2.length : ℕ) : ℚ)

/-- `ResultRankingService.calculateQueryAlignment`. -/
def calculateQueryAlignment (result : SearchResult) (originalQuery : String) : ℚ :=
  let queryUsed := jsToLower result.queryUsed
  let originalLower := jsToLower originalQuery
  if queryUsed = originalLower then 1
  else if calculateStringSimilarity queryUsed originalLower > 0.8 then 0.9
  else
    match result.searchStrategy with
    | "original" => 1
    | "decomposed" => 0.85
    | "expanded" => 0.8
    | "technical" => 0.75
    | "troubleshooting" => 0.9
    | _ => 0.7

/-- `ResultRankingService.calculateRankingFactors`. -/
def calculateRankingFactors (mc : MatchCountOracle) (result : SearchResult)
    (originalQuery : String) : RankingFactors :=
  { semanticSimilarity := result.similarity
    titleRelevance := calculateTitleRelevance result.title originalQuery
    contentQuality := calculateContentQuality (mc.code result.content)
      (mc.structural result.content) result.content
    documentType := calculateDocumentType result.filename result.content
    recency := calculateRecency result.metadata
    sourceReliability := calculateSourceReliability result.sourceUrl result.filename
    queryAlignment := calculateQueryAlignment result originalQuery }

/-- `ResultRankingService.calculateRankingScore` (the weighted sum). -/
def calculateRankingScore (factors : RankingFactors) (config : RankingConfig) : ℚ :=
  factors.semanticSimilarity * config.weights.semanticSimilarity +
  factors.titleRelevance * config.weights.titleRelevance +
  factors.contentQuality * config.weights.contentQuality +
  factors.documentType * config.weights.documentType +
  factors.recency * config.weights.recency +
  factors.sourceReliability * config.weights.sourceReliability +
  factors.queryAlignment * config.weights.queryAlignment

/-- Whether the official-docs boost of `applyBoosts` fires. -/
def officialSignal (result : SearchResult) : Bool :=
  jsIncludes (jsToLower result.filename) ("framework_user") ||
    (match result.sourceUrl with
      | some u => jsIncludes u ("frappeframework.com")
      | none => false)

/-- Whether the tutorials boost of `applyBoosts` fires. -/
def tutorialSignal (result : SearchResult) : Bool :=
  jsIncludes (jsToLower result.filename) ("tutorial") || jsIncludes (jsToLower result.content) ("tutorial")

/-- Whether the API-docs boost of `applyBoosts` fires. -/
def apiSignal (result : SearchResult) : Bool :=
  jsIncludes (jsToLower result.filename) ("api") || jsIncludes (jsToLower result.content) ("api")

/-- Whether the examples boost of `applyBoosts` fires. -/
def exampleSignal (result : SearchResult) : Bool :=
  jsIncludes (jsToLower result.filename) ("example") || jsIncludes (jsToLower result.content) ("example")

/-- `ResultRankingService.applyBoosts`: the four independently triggered
multiplicative boosts, applied in sequence. -/
def applyBoosts (score : ℚ) (result : SearchResult) (config : RankingConfig) : ℚ :=
  let s1 := if officialSignal result then score * config.boosts.officialDocs else score
  let s2 := if tutorialSignal result then s1 * config.boosts.tutorials else s1
  let s3 := if apiSignal result then s2 * config.boosts.apiDocs else s2
  if exampleSignal result then s3 * config.boosts.examples else s3

/-- The total multiplicative factor `applyBoosts` applies to a result. -/
def boostMultiplier (result : SearchResult) (config : RankingConfig) : ℚ :=
  (if officialSignal result then config.boosts.officialDocs else 1) *
  (if tutorialSignal result then config.boosts.tutorials else 1) *
  (if apiSignal result then config.boosts.apiDocs else 1) *
  (if exampleSignal result then config.boosts.examples else 1)

/-- `ResultRankingService.rankResults`: score every result, then sort by
ranking score descending (stable). -/
def rankResults (mc : MatchCountOracle) (results : List SearchResult)
    (originalQuery : String) (config : RankingConfig) : List RankedResult :=
  let ranked : List RankedResult := results.enum.map (fun p =>
    let factors := calculateRankingFactors mc p.2 originalQuery
    let score := applyBoosts (calculateRankingScore factors config) p.2 config
    { toSearchResult := p.2
      rankingScore := score
      rankingFactors := factors
      originalRank := p.1 })
  sortD (fun r => r.rankingScore) ranked

end ResultRankingService

/-- Names for the seven ranking factors, used to state weight-shift
properties about `calculateRankingScore`. -/
inductive FactorIdx : Type
  | semanticSimilarity | titleRelevance | contentQuality | documentType
  | recency | sourceReliability | queryAlignment
deriving DecidableEq

/-- Project the factor named by a `FactorIdx` out of a `RankingFactors`. -/
def getFactor (f : RankingFactors) : FactorIdx → ℚ
  | .semanticSimilarity => f.semanticSimilarity
  | .titleRelevance => f.titleRelevance
  | .contentQuality => f.contentQuality
  | .documentType => f.documentType
  | .recency => f.recency
  | .sourceReliability => f.sourceReliability
  | .queryAlignment => f.queryAlignment

/-- Project the weight named by a `FactorIdx` out of a `RankingWeights`. -/
def getWeight (w : RankingWeights) : FactorIdx → ℚ
  | .semanticSimilarity => w.semanticSimilarity
  | .titleRelevance => w.titleRelevance
  | .contentQuality => w.contentQuality
  | .documentType => w.documentType
  | .recency => w.recency
  | .sourceReliability => w.sourceReliability
  | .queryAlignment => w.queryAlignment

/-- Add `d` to the weight named by `k`, leaving the others unchanged. -/
def addWeight (w : RankingWeights) (k : FactorIdx) (d : ℚ) : RankingWeights :=
  match k with
  | .semanticSimilarity => { w with semanticSimilarity := w.semanticSimilarity + d }
  | .titleRelevance => { w with titleRelevance := w.titleRelevance + d }
  | .contentQuality => { w with contentQuality := w.contentQuality + d }
  | .documentType => { w with documentType := w.documentType + d }
  | .recency => { w with recency := w.recency + d }
  | .sourceReliability => { w with sourceReliability := w.sourceReliability + d }
  | .queryAlignment => { w with queryAlignment := w.queryAlignment + d }

/-- The weight shift of the weight-sensitivity property: increase the
`semanticSimilarity` weight by `d` and decrease the weight named `k` by the
same `d`. -/
def shiftWeights (w : RankingWeights) (k : FactorIdx) (d : ℚ) : RankingWeights :=
  addWeight (addWeight w .semanticSimilarity d) k (-d)

/-! ## IterativeRefinementService
(src/server/src/services/iterativeRefinementService.ts) -/

/-- The `GapAnalysis` record. -/
structure GapAnalysis : Type where
  informationGaps : List String
  missingTopics : List String
  ambiguousAreas : List String
  needsMoreDetail : List String
  confidence : ℚ
deriving DecidableEq

/-- The `RefinementContext` record. -/
structure RefinementContext : Type where
  originalQuery : String
  searchResults : List RankedResult
  iteration : ℕ
  maxIterations : ℕ
  confidenceThreshold : ℚ
  gapsIdentified : List String
  followUpQueries : List String

/-- The `RefinementResult` record. -/
structure RefinementResult : Type where
  shouldRefine : Bool
  followUpQueries : List String
  gapAnalysis : GapAnalysis
  refinementReason : String
  confidence : ℚ
deriving DecidableEq

/-- Oracle for one language-model call of `analyzeInformationGaps`:
`failed` models a thrown call or unparseable JSON (the catch branch);
`parsed raw` models a successful parse, where `raw` already carries the
field defaults the code applies (a missing list is `[]`, a falsy
confidence is 0) but not yet the confidence clamp. -/
inductive GapLLMResponse : Type
  | failed
  | parsed (raw : GapAnalysis)
deriving DecidableEq

/-- One element of a parsed JSON array: a string, or a value of any other
type (which the follow-up filter drops). -/
inductive JsonItem : Type
  | str (s : String)
  | other
deriving DecidableEq

/-- Oracle for one language-model call of the refinement service's
`generateFollowUpQueries`: a thrown call or unparseable JSON (`failed`),
a parse that is not an array (`notArray`), or a parsed array. -/
inductive FollowUpLLMResponse : Type
  | failed
  | notArray
  | arr (items : List JsonItem)
deriving DecidableEq

namespace IterativeRefinementService

/-- `IterativeRefinementService.calculateQuerySimilarity` — identical in
body to `ResultRankingService.calculateStringSimilarity`. -/
def calculateQuerySimilarity (query1 query2 : String) : ℚ :=
  ResultRankingService.calculateStringSimilarity query1 query2

/-- `IterativeRefinementService.analyzeInformationGaps`.  The early return
on an empty result list happens before the prompt is built, so the oracle
(the model response) is not consulted there. -/
def analyzeInformationGaps (resp : GapLLMResponse) (originalQuery : String)
    (results : List RankedResult) : GapAnalysis :=
  if results.isEmpty then
    { informationGaps := ["No results found"]
      missingTopics := ["All topics"]
      ambiguousAreas := []
      needsMoreDetail := []
      confidence := 0 }
  else
    match resp with
    | .parsed raw =>
      { informationGaps := raw.informationGaps
        missingTopics := raw.missingTopics
        ambiguousAreas := raw.ambiguousAreas
        needsMoreDetail := raw.needsMoreDetail
        confidence := max 0 (min 1 raw.confidence) }
    | .failed =>
      let avgScore := ((results.map (fun r => r.rankingScore)).sum) / (results.length : ℚ)
      let confidence := min 1 avgScore
      { informationGaps := if confidence < 0.6 then ["Low quality results"] else []
        missingTopics := if results.length < 3 then ["Insufficient coverage"] else []
        ambiguousAreas := []
        needsMoreDetail := if confidence < 0.7 then ["More detailed information needed"] else []
        confidence := confidence }

/-- `IterativeRefinementService.generateFollowUpQueries`: short-circuit on
high confidence, then either filter the parsed array (string entries longer
than 10 characters whose word-overlap similarity to every previous query is
at most 0.8) or fall back to at most two concatenation-built queries. -/
def generateFollowUpQueries (resp : FollowUpLLMResponse) (originalQuery : String)
    (gapAnalysis : GapAnalysis) (previousQueries : List String) : List String :=
  if gapAnalysis.confidence > 0.85 then []
  else
    match resp with
    | .arr items =>
      items.filterMap (fun item =>
        match item with
        | .str q =>
          if q.length > 10 &&
              !(previousQueries.any (fun prev =>
                decide (calculateQuerySimilarity (jsToLower q) (jsToLower prev) > 0.8))) then
            some q
          else none
        | .other => none)
    | .notArray => []
    | .failed =>
      ((match gapAnalysis.missingTopics with
        | [] => []
        | t :: _ => [originalQuery ++ " " ++ t]) ++
       (match gapAnalysis.needsMoreDetail with
        | [] => []
        | d :: _ => [d ++ " detailed explanation"]) ++
       (match gapAnalysis.informationGaps with
        | [] => []
        | g :: _ => [originalQuery ++ " " ++ g])).take 2

/-- Rendering of JS `confidence.toFixed(2)` used only inside the
low-confidence reason string (two decimal digits; confidence here is
already clamped to [0,1] on every reachable path). -/
def toFixed2 (q : ℚ) : String :=
  let n : ℤ := ⌊q * 100 + 1 / 2⌋
  let frac : ℕ := n.natAbs % 100
  toString (n / 100) ++ "." ++ (if frac < 10 then "0" else "") ++ toString frac

/-- `IterativeRefinementService.shouldRefineSearch`.  The two model calls it
may make are supplied as oracles; neither is consulted when the iteration
cap is reached. -/
def shouldRefineSearch (gapResp : GapLLMResponse) (fuResp : FollowUpLLMResponse)
    (context : RefinementContext) : RefinementResult :=
  if context.iteration ≥ context.maxIterations then
    { shouldRefine := false
      followUpQueries := []
      gapAnalysis :=
        { informationGaps := []
          missingTopics := []
          ambiguousAreas := []
          needsMoreDetail := []
          confidence := 1 }
      refinementReason := "Maximum iterations reached"
      confidence := 1 }
  else
    let gapAnalysis := analyzeInformationGaps gapResp context.originalQuery context.searchResults
    if gapAnalysis.confidence ≥ context.confidenceThreshold then
      { shouldRefine := false
        followUpQueries := []
        gapAnalysis := gapAnalysis
        refinementReason := "Confidence threshold met"
        confidence := gapAnalysis.confidence }
    else
      let followUpQueries :=
        generateFollowUpQueries fuResp context.originalQuery gapAnalysis context.followUpQueries
      let shouldRefine : Bool :=
        followUpQueries.length > 0 &&
          decide (gapAnalysis.confidence < context.confidenceThreshold)
      { shouldRefine := shouldRefine
        followUpQueries := followUpQueries
        gapAnalysis := gapAnalysis
        refinementReason :=
          if shouldRefine then
            "Low confidence (" ++ toFixed2 gapAnalysis.confidence ++ ") - gaps identified"
          else "No actionable follow-up queries generated"
        confidence := gapAnalysis.confidence }

/-- The merge key of `mergeIterativeResults`: filename and title. -/
def mergeKey (r : RankedResult) : String := r.filename ++ "_" ++ r.title

/-- `IterativeRefinementService.mergeIterativeResults`: flatten, keep one
entry per (filename, title) key preferring the higher ranking score (a JS
`Map` keeps the first-insertion position on replacement), then sort by
ranking score descending. -/
def mergeIterativeResults (allResults : List (List RankedResult)) : List RankedResult :=
  sortD (fun r => r.rankingScore)
    (dedupLoop mergeKey (fun r => r.rankingScore) allResults.flatten [])

/-- `IterativeRefinementService.calculateConvergence`: at least 60 percent
of the previous top five must reappear (by filename and title) among the
new top five. -/
def calculateConvergence (previousResults currentResults : List RankedResult) : Bool :=
  if previousResults.isEmpty then false
  else
    let topPrevious := previousResults.take 5
    let topCurrent := currentResults.take 5
    let similarCount :=
      (topPrevious.filter (fun p =>
        topCurrent.any (fun c => c.filename == p.filename && c.title == p.title))).length
    decide (((similarCount : ℚ) / ((max topPrevious.length topCurrent.length : ℕ) : ℚ)) ≥ 0.6)

/-- One entry of `IterativeSearchResult.iterations`. -/
structure IterationRecord : Type where
  iteration : ℕ
  query : String
  results : List RankedResult
  gapAnalysis : GapAnalysis
  refinementApplied : Bool

/-- The `IterativeSearchResult` record. -/
structure IterativeSearchResult : Type where
  finalResults : List RankedResult
  iterations : List IterationRecord
  totalIterations : ℕ
  convergenceReached : Bool
  finalConfidence : ℚ

/-- The oracles consumed by one `executeIterativeSearch` call: the model
responses for the initial and final gap analyses, the per-iteration model
responses used inside `shouldRefineSearch`, and the supplied search
function (`none` models a throw, which the loop catches per query). -/
structure IterativeOracles : Type where
  initialGapResp : GapLLMResponse
  finalGapResp : GapLLMResponse
  gapResp : ℕ → GapLLMResponse
  fuResp : ℕ → FollowUpLLMResponse
  search : String → Option (List RankedResult)

/-- The options record of `executeIterativeSearch`; `none` models an absent
field (JS `||` also replaces 0 with the default, since 0 is falsy). -/
structure IterativeOptions : Type where
  maxIterations : Option ℕ
  confidenceThreshold : Option ℚ

/-- JS `x || d` on an optional number, for naturals. -/
def jsOrNat (x : Option ℕ) (d : ℕ) : ℕ :=
  match x with
  | none => d
  | some n => if n = 0 then d else n

/-- JS `x || d` on an optional number, for rationals. -/
def jsOrRat (x : Option ℚ) (d : ℚ) : ℚ :=
  match x with
  | none => d
  | some q => if q = 0 then d else q

/-- The running state of the refinement loop of `executeIterativeSearch`. -/
structure LoopState : Type where
  currentResults : List RankedResult
  allQueries : List String
  iterations : List IterationRecord
  convergenceReached : Bool

/-- The follow-up execution of one loop round: run every follow-up query
through the search function, collecting results and recording the query;
a throwing query (`none`) contributes nothing. -/
def runFollowUps (search : String → Option (List RankedResult))
    (queries : List String) (allQueries : List String) :
    List RankedResult × List String :=
  queries.foldl (fun acc fq =>
    match search fq with
    | some queryResults => (acc.1 ++ queryResults, acc.2 ++ [fq])
    | none => acc) ([], allQueries)

/-- The `for (let iteration = 1; iteration <= maxIterations; iteration++)`
loop of `executeIterativeSearch`.  `remaining` is the number of loop
iterations still to run (`maxIterations - iteration + 1`); the recursion
consumes it, mirroring the loop bound. -/
def iterLoop (o : IterativeOracles) (originalQuery : String)
    (maxIterations : ℕ) (confidenceThreshold : ℚ) :
    ℕ → ℕ → LoopState → LoopState
  | 0, _, st => st
  | remaining + 1, iteration, st =>
    let context : RefinementContext :=
      { originalQuery := originalQuery
        searchResults := st.currentResults
        iteration := iteration
        maxIterations := maxIterations
        confidenceThreshold := confidenceThreshold
        gapsIdentified := []
        followUpQueries := st.allQueries }
    let refinementResult := shouldRefineSearch (o.gapResp iteration) (o.fuResp iteration) context
    if !refinementResult.shouldRefine then
      { st with convergenceReached := true }
    else
      let ran := runFollowUps o.search refinementResult.followUpQueries st.allQueries
      let iterationResults := ran.1
      let previousResults := st.currentResults
      let currentResults := mergeIterativeResults [previousResults, iterationResults]
      let converged :=
        st.convergenceReached || calculateConvergence previousResults currentResults
      let record : IterationRecord :=
        { iteration := iteration
          query := jsJoin (" | ") refinementResult.followUpQueries
          results := iterationResults
          gapAnalysis := refinementResult.gapAnalysis
          refinementApplied := true }
      let st' : LoopState :=
        { currentResults := currentResults
          allQueries := ran.2
          iterations := st.iterations ++ [record]
          convergenceReached := converged }
      if converged then st'
      else iterLoop o originalQuery maxIterations confidenceThreshold remaining (iteration + 1) st'

/-- `IterativeRefinementService.executeIterativeSearch`. -/
def executeIterativeSearch (o : IterativeOracles) (originalQuery : String)
    (initialResults : List RankedResult) (options : IterativeOptions) :
    IterativeSearchResult :=
  let maxIterations := jsOrNat options.maxIterations 3
  let confidenceThreshold := jsOrRat options.confidenceThreshold 0.75
  let initialGapAnalysis := analyzeInformationGaps o.initialGapResp originalQuery initialResults
  let st0 : LoopState :=
    { currentResults := initialResults
      allQueries := [originalQuery]
      iterations :=
        [{ iteration := 0
           query := originalQuery
           results := initialResults
           gapAnalysis := initialGapAnalysis
           refinementApplied := false }]
      convergenceReached := false }
  let stF := iterLoop o originalQuery maxIterations confidenceThreshold maxIterations 1 st0
  let finalGapAnalysis := analyzeInformationGaps o.finalGapResp originalQuery stF.currentResults
  { finalResults := stF.currentResults
    iterations := stF.iterations
    totalIterations := stF.iterations.length - 1
    convergenceReached := stF.convergenceReached
    finalConfidence := finalGapAnalysis.confidence }

end IterativeRefinementService

/-! ## Regex matching for QueryDecompositionService.isComplexQuery

Every complexity-indicator pattern is an alternation of literal runs glued
by greedy wildcards, wrapped in word boundaries, with the `i` flag (except
the double-question-mark pattern).  The scanners below implement exactly
that fragment: a word boundary demands a non-word character (or the string
edge) next to the word character it touches, and the wildcard `.` of the JS
regexes matches every character except an ECMAScript line terminator
(LF, CR, LINE SEPARATOR, PARAGRAPH SEPARATOR). -/

/-- JS regex word character (the class backslash-w). -/
def isWordChar (c : Char) : Bool := c.isAlphanum || c = '_'

/-- Whether a word boundary holds just before `post` (its first character
must not be a word character; the string end also qualifies).  All literals
in the patterns below end with word characters, so this is the trailing
boundary test. -/
def boundaryBefore (post : List Char) : Bool :=
  match post with
  | [] => true
  | c :: _ => !isWordChar c

/-- Match the literal `w` right here, followed by a word boundary. -/
def litHere (w : List Char) (s : List Char) : Bool :=
  w.isPrefixOf s && boundaryBefore (s.drop w.length)

/-- Scan for the literal `w` at a word boundary; `prevIsWord` says whether
the character just before the current position is a word character. -/
def scanWord (w : List Char) : Bool → List Char → Bool
  | _, [] => false
  | prevIsWord, c :: rest =>
    (!prevIsWord && litHere w (c :: rest)) || scanWord w (isWordChar c) rest

/-- Whole-string test for the pattern word-boundary `w` word-boundary
(with `w` a literal made of word characters). -/
def matchWord (w : String) (s : List Char) : Bool := scanWord w.toList false s

/-- The ECMAScript LineTerminator characters, which the regex wildcard `.`
does not match: LF, CR, LINE SEPARATOR and PARAGRAPH SEPARATOR. -/
def isLineTerminator (c : Char) : Bool :=
  c = '\n' || c = '\r' || c = '\u2028' || c = '\u2029'

/-- After a greedy wildcard: find `v` (ending at a word boundary) at or
after the current position, crossing no line terminator. -/
def scanGapThenLit (v : List Char) : List Char → Bool
  | [] => false
  | c :: rest => litHere v (c :: rest) || (!isLineTerminator c && scanGapThenLit v rest)

/-- Scan for the pattern word-boundary `u` wildcard `v` word-boundary. -/
def scanPair (u v : List Char) : Bool → List Char → Bool
  | _, [] => false
  | prevIsWord, c :: rest =>
    (!prevIsWord && u.isPrefixOf (c :: rest) && scanGapThenLit v ((c :: rest).drop u.length)) ||
      scanPair u v (isWordChar c) rest

/-- Whole-string test for word-boundary `u` wildcard `v` word-boundary. -/
def matchPair (u v : String) (s : List Char) : Bool := scanPair u.toList v.toList false s

/-- After a greedy wildcard: find `v`, then another wildcard, then `w`
ending at a word boundary. -/
def scanGapThenLit2 (v w : List Char) : List Char → Bool
  | [] => false
  | c :: rest =>
    (v.isPrefixOf (c :: rest) && scanGapThenLit w ((c :: rest).drop v.length)) ||
      (!isLineTerminator c && scanGapThenLit2 v w rest)

/-- Scan for word-boundary `u` wildcard `v` wildcard `w` word-boundary. -/
def scanTriple (u v w : List Char) : Bool → List Char → Bool
  | _, [] => false
  | prevIsWord, c :: rest =>
    (!prevIsWord && u.isPrefixOf (c :: rest) && scanGapThenLit2 v w ((c :: rest).drop u.length)) ||
      scanTriple u v w (isWordChar c) rest

/-- Whole-string test for word-boundary `u` wildcard `v` wildcard `w`
word-boundary. -/
def matchTriple (u v w : String) (s : List Char) : Bool :=
  scanTriple u.toList v.toList w.toList false s

/-- After the first question mark: find a second one crossing no line
terminator (the wildcard of the two-question-marks pattern). -/
def scanGapThenQ : List Char → Bool
  | [] => false
  | c :: rest => c = '?' || (!isLineTerminator c && scanGapThenQ rest)

/-- Whole-string test for the two-question-marks pattern (question mark,
wildcard, question mark; no case flag, no word boundaries). -/
def matchTwoQuestionMarks : List Char → Bool
  | [] => false
  | c :: rest => (c = '?' && scanGapThenQ rest) || matchTwoQuestionMarks rest

namespace QueryDecompositionService

/-- Indicator 1 of `isComplexQuery`: the conjunction-words pattern
(and, or, but, however, also, additionally, furthermore, moreover). -/
def conjunctionIndicator (q : List Char) : Bool :=
  ["and", "or", "but", "however", "also", "additionally", "furthermore", "moreover"].any
    (fun w => matchWord w q)

/-- Indicator 2 of `isComplexQuery`: the multi-step pattern
(how-to-then-and, step-then-step, first-then-then, after-then-before). -/
def multiStepIndicator (q : List Char) : Bool :=
  matchPair ("how to") ("and") q || matchPair ("step") ("step") q ||
    matchPair ("first") ("then") q || matchPair ("after") ("before") q

/-- Indicator 3 of `isComplexQuery`: the comparison pattern
(compare, difference, versus, vs, between-then-and). -/
def comparisonIndicator (q : List Char) : Bool :=
  (["compare", "difference", "versus", "vs"].any (fun w => matchWord w q)) ||
    matchPair ("between") ("and") q

/-- Indicator 4 of `isComplexQuery`: the plurality pattern
(multiple, several, various, different, all). -/
def pluralityIndicator (q : List Char) : Bool :=
  ["multiple", "several", "various", "different", "all"].any (fun w => matchWord w q)

/-- Indicator 6 of `isComplexQuery`: the combined explain/what pattern
(explain-then-how-then-why, what-then-when-then-where). -/
def explainIndicator (q : List Char) : Bool :=
  matchTriple ("explain") ("how") ("why") q || matchTriple ("what") ("when") ("where") q

/-- JS word count of `query.split(/\s+/).length`. -/
def wordCountJS (query : String) : ℕ := (splitWs query.toList).length

/-- `QueryDecompositionService.isComplexQuery`: word count above 15, or any
complexity indicator matches.  The case-insensitive patterns run on the
lowercased query; the two-question-marks pattern has no `i` flag and runs
on the query as given. -/
def isComplexQuery (query : String) : Bool :=
  let q := (jsToLower query).toList
  let hasComplexIndicators :=
    conjunctionIndicator q || multiStepIndicator q || comparisonIndicator q ||
      pluralityIndicator q || matchTwoQuestionMarks query.toList || explainIndicator q
  wordCountJS query > 15 || hasComplexIndicators

end QueryDecompositionService

/-! ## MultiQueryService.generateSearchStrategies / isTroubleshootingQuery
(src/server/src — MultiQueryService) -/

/-- A sub-query produced by query decomposition. -/
structure SubQuery : Type where
  question : String
  priority : ℚ
  category : String
deriving DecidableEq

/-- The decomposition outcome consumed by `generateSearchStrategies`
(`decomposeQuery`'s result — itself a model call plus fallback, supplied
here as an oracle). -/
structure DecompositionResult : Type where
  originalQuery : String
  subQueries : List SubQuery
  isComplex : Bool
  strategy : String
deriving DecidableEq

/-- One expanded query of the expansion service, as consumed by
`generateSearchStrategies` (only the `expanded` text and `confidence` are
read). -/
structure ExpandedQuery : Type where
  expanded : String
  confidence : ℚ
deriving DecidableEq

/-- The `SearchStrategy` record of multiQueryService.ts. -/
structure SearchStrategy : Type where
  name : String
  queries : List String
  weight : ℚ
  threshold : Option ℚ
  limit : Option ℕ
deriving DecidableEq

/-- The collaborator outputs `generateSearchStrategies` consumes: the
decomposition of the query, the expansion list, and the two
context-variation lists (all model-backed, supplied as oracles). -/
structure StrategyOracles : Type where
  decomposition : DecompositionResult
  expandedQueries : List ExpandedQuery
  technicalVariations : List String
  troubleshootingVariations : List String

namespace MultiQueryService

/-- The apostrophe character, used by the keyword list below. -/
def apostrophe : Char := Char.ofNat 39

/-- `MultiQueryService.isTroubleshootingQuery`: the lowercased query
contains one of the fourteen troubleshooting keywords. -/
def isTroubleshootingQuery (query : String) : Bool :=
  let troubleshootingKeywords : List String :=
    ["error", "problem", "issue", "not working", "failed", "fix", "solve",
     "troubleshoot", "debug", "broken", "wrong", "help",
     "can" ++ apostrophe.toString ++ "t", "unable"]
  let queryLower := jsToLower query
  troubleshootingKeywords.any (fun keyword => jsIncludes queryLower keyword)

/-- `MultiQueryService.generateSearchStrategies`: the original strategy,
then conditionally the decomposed, expanded, technical and troubleshooting
strategies, in this order. -/
def generateSearchStrategies (o : StrategyOracles) (query : String) : List SearchStrategy :=
  let original : List SearchStrategy :=
    [{ name := "original", queries := [query], weight := 1,
       threshold := some 0.75, limit := some 8 }]
  let decomposed : List SearchStrategy :=
    if o.decomposition.isComplex ∧ o.decomposition.subQueries.length > 1 then
      [{ name := "decomposed"
         queries := ((sortD (fun sq => sq.priority) o.decomposition.subQueries).take 3).map
           (fun sq => sq.question)
         weight := 0.9, threshold := some 0.7, limit := some 6 }]
    else []
  let expanded : List SearchStrategy :=
    if o.expandedQueries.length > 0 then
      [{ name := "expanded"
         queries := ((o.expandedQueries.filter (fun eq => decide (eq.confidence > 0.6))).take 3).map
           (fun eq => eq.expanded)
         weight := 0.8, threshold := some 0.65, limit := some 6 }]
    else []
  let technical : List SearchStrategy :=
    if o.technicalVariations.length > 1 then
      [{ name := "technical", queries := o.technicalVariations.take 2,
         weight := 0.7, threshold := some 0.6, limit := some 5 }]
    else []
  let troubleshooting : List SearchStrategy :=
    if isTroubleshootingQuery query then
      [{ name := "troubleshooting", queries := o.troubleshootingVariations.take 2,
         weight := 0.85, threshold := some 0.65, limit := some 5 }]
    else []
  original ++ decomposed ++ expanded ++ technical ++ troubleshooting

end MultiQueryService

/-- The score `rankResults` assigns to one result before sorting: the
weighted factor sum with the boosts applied. -/
def resultScore (mc : MatchCountOracle) (result : SearchResult) (originalQuery : String)
    (config : RankingConfig) : ℚ :=
  ResultRankingService.applyBoosts
    (ResultRankingService.calculateRankingScore
      (ResultRankingService.calculateRankingFactors mc result originalQuery) config)
    result config

/-! ## Concrete instances used by the closed theorems below -/

/-- A match-count oracle that reports zero matches for every pattern — the
true counts for the empty contents used by the concrete results below. -/
def zeroCountsOracle : MatchCountOracle :=
  ⟨fun _ => ⟨0, 0, 0, 0, 0⟩, fun _ => ⟨0, 0, 0, 0⟩⟩

/-- A result whose title matches the query exactly but whose other factors
are plain. -/
def c3A : SearchResult :=
  ⟨"A", "doc", "alpha", "", 0.9, none, RecencyInfo.noDate, "misc", "beta gamma"⟩

/-- A result with slightly lower similarity and no title match, but better
recency, source reliability and query alignment. -/
def c3B : SearchResult :=
  ⟨"B", "zzz", "zzzz", "", 0.8, some "https://frappe.io/x", RecencyInfo.daysAgo 10,
    "misc2", "alpha"⟩

/-- A shared document body longer than 100 characters, so that the
first-100-characters dedup key is a proper prefix. -/
def introContent : String :=
  "Frappe Framework is a full-stack web application framework written in Python and JavaScript that uses MariaDB as its primary database and powers database-driven applications."

/-- The lower-similarity copy of the scenario-C pair. -/
def introLow : SearchResult :=
  ⟨"1", "intro.json", "Introduction", introContent, 0.62, none, RecencyInfo.noDate,
    "original", "intro query"⟩

/-- The higher-similarity copy of the scenario-C pair. -/
def introHigh : SearchResult :=
  ⟨"2", "intro.json", "Introduction B", introContent, 0.81, none, RecencyInfo.noDate,
    "expanded", "other query"⟩

/-- A gap analysis with confidence 0.5 (below the 0.85 short-circuit). -/
def c8Gap : GapAnalysis := ⟨[], [], [], [], 0.5⟩

/-- A refinement context whose iteration counter has reached the maximum. -/
def c4Context : RefinementContext := ⟨"some query", [], 3, 3, 0.75, [], []⟩

/-- A search result carrying a raw similarity above 1, as nothing upstream
clamps it. -/
def unboundedResult : SearchResult :=
  ⟨"sr", "doc", "t", "", 2, none, RecencyInfo.noDate, "original", "q"⟩

/-! ## Lemmas about the stable descending sort -/

section SortLemmas

variable {α : Type} (key : α → ℚ)

theorem insD_perm (x : α) (l : List α) : List.Perm (insD key x l) (x :: l) := by
  induction l with
  | nil => simp [insD]
  | cons y ys ih =>
    simp only [insD]
    split
    · exact List.Perm.refl _
    · exact (List.Perm.cons y ih).trans (List.Perm.swap x y ys)

theorem sortD_perm (l : List α) : List.Perm (sortD key l) l := by
  induction l with
  | nil => simp [sortD]
  | cons x xs ih =>
    exact (insD_perm key x (sortD key xs)).trans (List.Perm.cons x ih)

theorem mem_sortD {a : α} {l : List α} : a ∈ sortD key l ↔ a ∈ l :=
  (sortD_perm key l).mem_iff

theorem mem_insD {a x : α} {l : List α} : a ∈ insD key x l ↔ a = x ∨ a ∈ l := by
  rw [(insD_perm key x l).mem_iff, List.mem_cons]

theorem insD_pairwise {x : α} {l : List α}
    (h : l.Pairwise (fun a b => key b ≤ key a)) :
    (insD key x l).Pairwise (fun a b => key b ≤ key a) := by
  induction l with
  | nil => simp [insD]
  | cons y ys ih =>
    rw [List.pairwise_cons] at h
    simp only [insD]
    split
    · rename_i hyx
      rw [List.pairwise_cons]
      refine ⟨?_, List.pairwise_cons.mpr h⟩
      intro b hb
      rcases List.mem_cons.mp hb with rfl | hb
      · exact hyx
      · exact le_trans (h.1 b hb) hyx
    · rename_i hyx
      rw [List.pairwise_cons]
      refine ⟨?_, ih h.2⟩
      intro b hb
      rcases (mem_insD key).mp hb with rfl | hb
      · exact le_of_not_le hyx
      · exact h.1 b hb

theorem sortD_sorted (l : List α) :
    (sortD key l).Pairwise (fun a b => key b ≤ key a) := by
  induction l with
  | nil => simp [sortD]
  | cons x xs ih => exact insD_pairwise key ih

theorem sortD_eq_self {l : List α}
    (h : l.Pairwise (fun a b => key b ≤ key a)) : sortD key l = l := by
  induction l with
  | nil => rfl
  | cons x xs ih =>
    rw [List.pairwise_cons] at h
    rw [sortD, ih h.2]
    cases xs with
    | nil => rfl
    | cons y ys =>
      simp only [insD, if_pos (h.1 y (List.mem_cons_self y ys))]

end SortLemmas

/-! ## Lemmas about the dedup/merge accumulation loop -/

section DedupLemmas

variable {α : Type} (key : α → String) (val : α → ℚ)

theorem replaceIfGreater_eq_self {r : α} {acc : List α}
    (h : ∀ x ∈ acc, val r ≤ val x) : replaceIfGreater key val r acc = acc := by
  induction acc with
  | nil => rfl
  | cons x xs ih =>
    simp only [replaceIfGreater]
    have hx : ¬ val x < val r := not_lt.mpr (h x (List.mem_cons_self x xs))
    rw [if_neg hx]
    split
    · rfl
    · rw [ih (fun y hy => h y (List.mem_cons_of_mem x hy))]

theorem map_key_replaceIfGreater (r : α) (acc : List α) :
    (replaceIfGreater key val r acc).map key = acc.map key := by
  induction acc with
  | nil => rfl
  | cons x xs ih =>
    simp only [replaceIfGreater]
    by_cases hk : (key x == key r) = true
    · rw [if_pos hk]
      have : key x = key r := by simpa using hk
      split <;> simp [this]
    · rw [if_neg hk]
      simp [ih]

theorem dedupLoop_append_of_nodup (l acc : List α)
    (h : ((acc ++ l).map key).Nodup) : dedupLoop key val l acc = acc ++ l := by
  induction l generalizing acc with
  | nil => simp [dedupLoop]
  | cons r rest ih =>
    have hnotin : key r ∉ acc.map key := by
      intro hmem
      rw [List.map_append] at h
      have hr : key r ∈ (r :: rest).map key := by simp
      exact (List.disjoint_of_nodup_append h) hmem hr
    have hany : acc.any (fun x => key x == key r) = false := by
      rw [List.any_eq_false]
      intro x hx
      simp only [beq_iff_eq]
      intro hkey
      exact hnotin (hkey ▸ List.mem_map_of_mem key hx)
    rw [dedupLoop, hany]
    simp only [Bool.false_eq_true, if_false]
    have : ((acc ++ [r]) ++ rest).map key |>.Nodup := by
      simpa using h
    rw [ih (acc ++ [r]) this]
    simp

theorem dedupLoop_nodup_keys {l : List α} {acc : List α}
    (h : (acc.map key).Nodup) : ((dedupLoop key val l acc).map key).Nodup := by
  induction l generalizing acc with
  | nil => simpa [dedupLoop] using h
  | cons r rest ih =>
    rw [dedupLoop]
    split
    · exact ih (by rwa [map_key_replaceIfGreater])
    · rename_i hany
      refine ih ?_
      rw [List.map_append, List.nodup_append]
      refine ⟨h, by simp, ?_⟩
      intro k hk
      simp only [List.map_cons, List.map_nil, List.mem_singleton]
      rintro rfl
      rw [List.any_eq_true] at hany
      apply hany
      obtain ⟨x, hx, hkx⟩ := List.mem_map.mp hk
      exact ⟨x, hx, by simp [hkx]⟩

theorem mem_keys_dedupLoop {l acc : List α} {k : String} :
    k ∈ (dedupLoop key val l acc).map key ↔ k ∈ acc.map key ∨ k ∈ l.map key := by
  induction l generalizing acc with
  | nil => simp [dedupLoop]
  | cons r rest ih =>
    rw [dedupLoop]
    split
    · rename_i hany
      rw [ih, map_key_replaceIfGreater]
      rw [List.any_eq_true] at hany
      obtain ⟨x, hx, hkx⟩ := hany
      have hkr : key r ∈ acc.map key := by
        have : key x = key r := by simpa using hkx
        exact this ▸ List.mem_map_of_mem key hx
      constructor
      · rintro (h | h)
        · exact Or.inl h
        · exact Or.inr (by simp [h])
      · rintro (h | h)
        · exact Or.inl h
        · rcases List.mem_map.mp h with ⟨y, hy, rfl⟩
          rcases List.mem_cons.mp hy with rfl | hy
          · exact Or.inl hkr
          · exact Or.inr (List.mem_map_of_mem key hy)
    · rw [ih]
      simp only [List.map_append, List.mem_append, List.map_cons, List.mem_cons,
        List.map_nil, List.mem_singleton]
      tauto

theorem dedupLoop_sorted {l acc : List α}
    (hl : l.Pairwise (fun a b => val b ≤ val a))
    (hacc : acc.Pairwise (fun a b => val b ≤ val a))
    (hdom : ∀ x ∈ acc, ∀ y ∈ l, val y ≤ val x) :
    (dedupLoop key val l acc).Pairwise (fun a b => val b ≤ val a) := by
  induction l generalizing acc with
  | nil => simpa [dedupLoop] using hacc
  | cons r rest ih =>
    rw [List.pairwise_cons] at hl
    rw [dedupLoop]
    split
    · rw [replaceIfGreater_eq_self key val
        (fun x hx => hdom x hx r (List.mem_cons_self r rest))]
      exact ih hl.2 hacc (fun x hx y hy => hdom x hx y (List.mem_cons_of_mem r hy))
    · refine ih hl.2 ?_ ?_
      · rw [List.pairwise_append]
        exact ⟨hacc, List.pairwise_singleton _ r,
          fun x hx y hy => (List.mem_singleton.mp hy) ▸
            hdom x hx r (List.mem_cons_self r rest)⟩
      · intro x hx y hy
        rcases List.mem_append.mp hx with hx | hx
        · exact hdom x hx y (List.mem_cons_of_mem r hy)
        · rw [List.mem_singleton.mp hx]
          exact hl.1 y hy

theorem dedupLoop_max (l acc pre s : List α)
    (hs : s = pre ++ l)
    (hsort : s.Pairwise (fun a b => val b ≤ val a))
    (hpre : ∀ y ∈ pre, key y ∈ acc.map key)
    (hacc : ∀ x ∈ acc, x ∈ s ∧ ∀ y ∈ s, key y = key x → val y ≤ val x)
    (hdom : ∀ x ∈ acc, ∀ y ∈ l, val y ≤ val x) :
    ∀ r ∈ dedupLoop key val l acc,
      r ∈ s ∧ ∀ y ∈ s, key y = key r → val y ≤ val r := by
  induction l generalizing acc pre with
  | nil => simpa [dedupLoop] using hacc
  | cons r rest ih =>
    rw [dedupLoop]
    split
    · rename_i hany
      rw [replaceIfGreater_eq_self key val
        (fun x hx => hdom x hx r (List.mem_cons_self r rest))]
      refine ih acc (pre ++ [r]) (by simpa using hs) ?_ hacc ?_
      · intro y hy
        rcases List.mem_append.mp hy with hy | hy
        · exact hpre y hy
        · rw [List.mem_singleton.mp hy]
          rw [List.any_eq_true] at hany
          obtain ⟨x, hx, hkx⟩ := hany
          have : key x = key r := by simpa using hkx
          exact this ▸ List.mem_map_of_mem key hx
      · exact fun x hx y hy => hdom x hx y (List.mem_cons_of_mem r hy)
    · rename_i hany
      have hknotin : key r ∉ acc.map key := by
        intro hmem
        rcases List.mem_map.mp hmem with ⟨x, hx, hkx⟩
        rw [List.any_eq_true] at hany
        exact hany ⟨x, hx, by simp [hkx]⟩
      have hrs : r ∈ s := hs ▸ List.mem_append.mpr (Or.inr (List.mem_cons_self r rest))
      have hGr : r ∈ s ∧ ∀ y ∈ s, key y = key r → val y ≤ val r := by
        refine ⟨hrs, ?_⟩
        intro y hy hky
        rw [hs] at hy
        rcases List.mem_append.mp hy with hy | hy
        · exact absurd (hky ▸ hpre y hy) hknotin
        · rcases List.mem_cons.mp hy with rfl | hy
          · exact le_refl _
          · have := (List.pairwise_append.mp (hs ▸ hsort)).2.1
            rw [List.pairwise_cons] at this
            exact this.1 y hy
      refine ih (acc ++ [r]) (pre ++ [r]) (by simpa using hs) ?_ ?_ ?_
      · intro y hy
        rw [List.map_append]
        rcases List.mem_append.mp hy with hy | hy
        · exact List.mem_append.mpr (Or.inl (hpre y hy))
        · rw [List.mem_singleton.mp hy]
          exact List.mem_append.mpr (Or.inr (by simp))
      · intro x hx
        rcases List.mem_append.mp hx with hx | hx
        · exact hacc x hx
        · rw [List.mem_singleton.mp hx]
          exact hGr
      · intro x hx y hy
        rcases List.mem_append.mp hx with hx | hx
        · exact hdom x hx y (List.mem_cons_of_mem r hy)
        · rw [List.mem_singleton.mp hx]
          have := (List.pairwise_append.mp (hs ▸ hsort)).2.1
          rw [List.pairwise_cons] at this
          exact this.1 y hy

end DedupLemmas

/-! ## Deduplication: idempotence and per-key correctness (C1, C2) -/

theorem deduplicateResults_sorted (l : List SearchResult) :
    (deduplicateResults l).Pairwise (fun a b => b.similarity ≤ a.similarity) :=
  dedupLoop_sorted dedupKey (fun r => r.similarity)
    (sortD_sorted (fun r => r.similarity) l) List.Pairwise.nil (by simp)

theorem deduplicateResults_nodup_keys (l : List SearchResult) :
    ((deduplicateResults l).map dedupKey).Nodup :=
  dedupLoop_nodup_keys dedupKey (fun r => r.similarity) (by simp)

/-- C1: deduplication is idempotent — applying
`MultiQueryService.deduplicateResults` to its own output returns the same
list, with the same elements in the same similarity-descending order. -/
theorem deduplicateResults_idempotent (l : List SearchResult) :
    deduplicateResults (deduplicateResults l) = deduplicateResults l := by
  have hsorted := deduplicateResults_sorted l
  have hnodup := deduplicateResults_nodup_keys l
  show dedupLoop dedupKey (fun r => r.similarity)
      (sortD (fun r => r.similarity) (deduplicateResults l)) [] = deduplicateResults l
  rw [sortD_eq_self _ hsorted]
  have h := dedupLoop_append_of_nodup dedupKey (fun r => r.similarity)
    (deduplicateResults l) [] (by simpa using hnodup)
  simpa using h

/-- C2: `deduplicateResults` keeps exactly one result per
(filename, first-100-characters) key — the output keys are exactly the
pooled keys, each occurring once — and every survivor is a pooled entry of
maximal similarity among the pooled entries sharing its key. -/
theorem deduplicateResults_key_correct (l : List SearchResult) :
    (∀ k, k ∈ (deduplicateResults l).map dedupKey ↔ k ∈ l.map dedupKey) ∧
    ((deduplicateResults l).map dedupKey).Nodup ∧
    ∀ r ∈ deduplicateResults l, r ∈ l ∧
      ∀ y ∈ l, dedupKey y = dedupKey r → y.similarity ≤ r.similarity := by
  refine ⟨?_, deduplicateResults_nodup_keys l, ?_⟩
  · intro k
    show k ∈ (dedupLoop dedupKey (fun r => r.similarity)
      (sortD (fun r => r.similarity) l) []).map dedupKey ↔ _
    rw [mem_keys_dedupLoop]
    simp only [List.map_nil, List.not_mem_nil, false_or]
    exact ((sortD_perm (fun r => r.similarity) l).map dedupKey).mem_iff
  · intro r hr
    have h := dedupLoop_max dedupKey (fun x => x.similarity)
      (sortD (fun x => x.similarity) l) [] [] (sortD (fun x => x.similarity) l) rfl
      (sortD_sorted (fun x => x.similarity) l) (by simp) (by simp) (by simp) r hr
    exact ⟨(mem_sortD (fun x => x.similarity)).mp h.1,
      fun y hy hk => h.2 y ((mem_sortD (fun x => x.similarity)).mpr hy) hk⟩

unseal Rat.ofScientific Rat.mul Rat.sub Rat.inv Rat.add in
/-- Witness for C2 at the scenario-C pair: two results with the same
filename and identical content but similarities 0.62 and 0.81; the
0.81 entry survives and dominates the 0.62 entry. -/
theorem deduplicateResults_key_correct_witness :
    introLow.similarity ≤ introHigh.similarity :=
  ((deduplicateResults_key_correct [introLow, introHigh]).2.2 introHigh (by decide)).2
    introLow (by decide) (by decide)

/-! ## Ranking: weight sensitivity (C3) and factor bounds (C9) -/

theorem applyBoosts_eq_mul (score : ℚ) (r : SearchResult) (cfg : RankingConfig) :
    ResultRankingService.applyBoosts score r cfg = score * ResultRankingService.boostMultiplier r cfg := by
  simp only [ResultRankingService.applyBoosts, ResultRankingService.boostMultiplier]
  split_ifs <;> ring

theorem calculateRankingScore_shift (f : RankingFactors) (w : RankingWeights)
    (b : RankingBoosts) (k : FactorIdx) (hk : k ≠ FactorIdx.semanticSimilarity) (d : ℚ) :
    ResultRankingService.calculateRankingScore f ⟨shiftWeights w k d, b⟩ =
      ResultRankingService.calculateRankingScore f ⟨w, b⟩ +
        d * (f.semanticSimilarity - getFactor f k) := by
  cases k
  case semanticSimilarity => exact absurd rfl hk
  all_goals
    simp only [ResultRankingService.calculateRankingScore, shiftWeights, addWeight, getFactor]
    ring

theorem boostMultiplier_weights_irrelevant (r : SearchResult) (w : RankingWeights)
    (cfg : RankingConfig) :
    ResultRankingService.boostMultiplier r ⟨w, cfg.boosts⟩ =
      ResultRankingService.boostMultiplier r cfg := rfl

theorem rankResults_pair (mc : MatchCountOracle) (A B : SearchResult) (query : String)
    (cfg : RankingConfig) :
    (ResultRankingService.rankResults mc [A, B] query cfg).map (fun r => r.originalRank) =
      if resultScore mc B query cfg ≤ resultScore mc A query cfg then [0, 1] else [1, 0] := by
  simp only [ResultRankingService.rankResults, resultScore, List.enum, List.enumFrom,
    List.map_cons, List.map_nil, sortD, insD]
  split <;> simp

/-- C3 (amended): with the two candidates receiving the same nonnegative
boost multiplier, shifting weight `d ≥ 0` from any one non-semantic factor
`k` onto `weights.semanticSimilarity` never demotes the candidate that was
ranked first, provided its advantage in factor `k` does not exceed its
advantage in `semanticSimilarity`. -/
theorem rankResults_weight_shift_monotone (mc : MatchCountOracle) (A B : SearchResult)
    (query : String) (cfg : RankingConfig) (k : FactorIdx) (d : ℚ)
    (hk : k ≠ FactorIdx.semanticSimilarity) (hd : 0 ≤ d)
    (hsem : (ResultRankingService.calculateRankingFactors mc B query).semanticSimilarity <
      (ResultRankingService.calculateRankingFactors mc A query).semanticSimilarity)
    (hfac : getFactor (ResultRankingService.calculateRankingFactors mc A query) k -
        getFactor (ResultRankingService.calculateRankingFactors mc B query) k ≤
      (ResultRankingService.calculateRankingFactors mc A query).semanticSimilarity -
        (ResultRankingService.calculateRankingFactors mc B query).semanticSimilarity)
    (hboost : ResultRankingService.boostMultiplier A cfg =
      ResultRankingService.boostMultiplier B cfg)
    (hbpos : 0 ≤ ResultRankingService.boostMultiplier A cfg)
    (hAfirst : (ResultRankingService.rankResults mc [A, B] query cfg).map
      (fun r => r.originalRank) = [0, 1]) :
    (ResultRankingService.rankResults mc [A, B] query
        ⟨shiftWeights cfg.weights k d, cfg.boosts⟩).map (fun r => r.originalRank) = [0, 1] := by
  rw [rankResults_pair] at hAfirst ⊢
  have hscore : resultScore mc B query cfg ≤ resultScore mc A query cfg := by
    by_contra h
    rw [if_neg h] at hAfirst
    simp at hAfirst
  rw [if_pos]
  clear hAfirst
  set fA := ResultRankingService.calculateRankingFactors mc A query with hfA
  set fB := ResultRankingService.calculateRankingFactors mc B query with hfB
  have eA : resultScore mc A query ⟨shiftWeights cfg.weights k d, cfg.boosts⟩ =
      (ResultRankingService.calculateRankingScore fA ⟨cfg.weights, cfg.boosts⟩ +
        d * (fA.semanticSimilarity - getFactor fA k)) *
        ResultRankingService.boostMultiplier A cfg := by
    rw [resultScore, applyBoosts_eq_mul, boostMultiplier_weights_irrelevant, ← hfA,
      calculateRankingScore_shift fA cfg.weights cfg.boosts k hk d]
  have eB : resultScore mc B query ⟨shiftWeights cfg.weights k d, cfg.boosts⟩ =
      (ResultRankingService.calculateRankingScore fB ⟨cfg.weights, cfg.boosts⟩ +
        d * (fB.semanticSimilarity - getFactor fB k)) *
        ResultRankingService.boostMultiplier B cfg := by
    rw [resultScore, applyBoosts_eq_mul, boostMultiplier_weights_irrelevant, ← hfB,
      calculateRankingScore_shift fB cfg.weights cfg.boosts k hk d]
  have eA0 : resultScore mc A query cfg =
      ResultRankingService.calculateRankingScore fA ⟨cfg.weights, cfg.boosts⟩ *
        ResultRankingService.boostMultiplier A cfg := by
    rw [resultScore, applyBoosts_eq_mul, ← hfA]
  have eB0 : resultScore mc B query cfg =
      ResultRankingService.calculateRankingScore fB ⟨cfg.weights, cfg.boosts⟩ *
        ResultRankingService.boostMultiplier B cfg := by
    rw [resultScore, applyBoosts_eq_mul, ← hfB]
  rw [eA, eB, ← hboost]
  rw [eA0, eB0, ← hboost] at hscore
  have hgain : 0 ≤ d * ((fA.semanticSimilarity - getFactor fA k) -
      (fB.semanticSimilarity - getFactor fB k)) * ResultRankingService.boostMultiplier A cfg := by
    refine mul_nonneg (mul_nonneg hd ?_) hbpos
    linarith
  nlinarith [hscore, hgain]

unseal Rat.ofScientific Rat.mul Rat.sub Rat.inv Rat.add in
/-- Witness for the amended C3: for the concrete pair `c3A`, `c3B` (equal
boost multipliers, semanticSimilarity 0.9 against 0.8), shifting 0.2 from
the recency weight onto the semanticSimilarity weight keeps `c3A` first. -/
theorem rankResults_weight_shift_monotone_witness :
    (ResultRankingService.rankResults zeroCountsOracle [c3A, c3B] "alpha"
        ⟨shiftWeights defaultConfig.weights FactorIdx.recency 0.2, defaultConfig.boosts⟩).map
      (fun r => r.originalRank) = [0, 1] :=
  rankResults_weight_shift_monotone zeroCountsOracle c3A c3B "alpha" defaultConfig
    FactorIdx.recency 0.2 (by decide) (by decide) (by decide) (by decide) (by decide)
    (by decide) (by decide)

unseal Rat.ofScientific Rat.mul Rat.sub Rat.inv Rat.add in
/-- Counterexample to C3 as stated: `c3A` has the strictly higher
semanticSimilarity (0.9 against 0.8) and is ranked first under the default
weights, but moving 0.2 of weight from titleRelevance onto
semanticSimilarity — an increase of `weights.semanticSimilarity` matched by
an equal decrease of one other weight, with all fourteen factor values
unchanged — puts `c3B` first. -/
theorem rankResults_weight_shift_counterexample :
    (ResultRankingService.calculateRankingFactors zeroCountsOracle c3B "alpha").semanticSimilarity <
      (ResultRankingService.calculateRankingFactors zeroCountsOracle c3A "alpha").semanticSimilarity ∧
    (shiftWeights defaultConfig.weights FactorIdx.titleRelevance 0.2).semanticSimilarity =
      defaultConfig.weights.semanticSimilarity + 0.2 ∧
    (shiftWeights defaultConfig.weights FactorIdx.titleRelevance 0.2).titleRelevance =
      defaultConfig.weights.titleRelevance - 0.2 ∧
    (ResultRankingService.rankResults zeroCountsOracle [c3A, c3B] "alpha" defaultConfig).map
      (fun r => r.originalRank) = [0, 1] ∧
    (ResultRankingService.rankResults zeroCountsOracle [c3A, c3B] "alpha"
        ⟨shiftWeights defaultConfig.weights FactorIdx.titleRelevance 0.2,
          defaultConfig.boosts⟩).map (fun r => r.originalRank) = [1, 0] := by
  refine ⟨by decide, by decide, by decide, by decide, by decide⟩

theorem minTerm_nonneg (c q : ℚ) (n : ℕ) (hc : 0 ≤ c) (hq : 0 ≤ q) :
    0 ≤ min c ((n : ℚ) * q) :=
  le_min hc (mul_nonneg (Nat.cast_nonneg n) hq)

theorem calculateTitleRelevance_bounds (title query : String) :
    0 ≤ ResultRankingService.calculateTitleRelevance title query ∧
      ResultRankingService.calculateTitleRelevance title query ≤ 1 := by
  simp only [ResultRankingService.calculateTitleRelevance]
  constructor
  · refine le_min (by norm_num) (mul_nonneg (add_nonneg ?_ ?_) (le_max_left 0 _))
    · split <;> norm_num
    · positivity
  · exact min_le_left 1 _

theorem calculateContentQuality_bounds (cc : CodeMatchCounts) (sc : StructureMatchCounts)
    (content : String) :
    0 ≤ ResultRankingService.calculateContentQuality cc sc content ∧
      ResultRankingService.calculateContentQuality cc sc content ≤ 1 := by
  simp only [ResultRankingService.calculateContentQuality]
  refine ⟨le_min (by norm_num) ?_, min_le_left 1 _⟩
  have hlen : (0:ℚ) ≤
      (if 100 < content.length ∧ content.length < 2000 then (0.2:ℚ)
        else if 2000 ≤ content.length ∧ content.length < 5000 then 0.1 else 0) := by
    split_ifs <;> norm_num
  linarith [hlen,
    minTerm_nonneg 0.1 0.02 cc.fencedBlocks (by norm_num) (by norm_num),
    minTerm_nonneg 0.1 0.02 cc.inlineSpans (by norm_num) (by norm_num),
    minTerm_nonneg 0.1 0.02 cc.defDecls (by norm_num) (by norm_num),
    minTerm_nonneg 0.1 0.02 cc.classDecls (by norm_num) (by norm_num),
    minTerm_nonneg 0.1 0.02 cc.functionDecls (by norm_num) (by norm_num),
    minTerm_nonneg 0.05 0.01 sc.headers (by norm_num) (by norm_num),
    minTerm_nonneg 0.05 0.01 sc.bullets (by norm_num) (by norm_num),
    minTerm_nonneg 0.05 0.01 sc.numbered (by norm_num) (by norm_num),
    minTerm_nonneg 0.05 0.01 sc.paragraphs (by norm_num) (by norm_num)]

theorem calculateDocumentType_bounds (filename content : String) :
    0 ≤ ResultRankingService.calculateDocumentType filename content ∧
      ResultRankingService.calculateDocumentType filename content ≤ 1 := by
  simp only [ResultRankingService.calculateDocumentType]
  split_ifs <;> norm_num

theorem calculateRecency_bounds (m : RecencyInfo) :
    0 ≤ ResultRankingService.calculateRecency m ∧
      ResultRankingService.calculateRecency m ≤ 1 := by
  cases m with
  | noDate => norm_num [ResultRankingService.calculateRecency]
  | invalidDate => norm_num [ResultRankingService.calculateRecency]
  | daysAgo d =>
    simp only [ResultRankingService.calculateRecency]
    split_ifs <;> norm_num

theorem calculateSourceReliability_bounds (sourceUrl : Option String) (filename : String) :
    0 ≤ ResultRankingService.calculateSourceReliability sourceUrl filename ∧
      ResultRankingService.calculateSourceReliability sourceUrl filename ≤ 1 := by
  simp only [ResultRankingService.calculateSourceReliability]
  split_ifs <;> norm_num

theorem calculateQueryAlignment_bounds (result : SearchResult) (originalQuery : String) :
    0 ≤ ResultRankingService.calculateQueryAlignment result originalQuery ∧
      ResultRankingService.calculateQueryAlignment result originalQuery ≤ 1 := by
  simp only [ResultRankingService.calculateQueryAlignment]
  split_ifs
  · norm_num
  · norm_num
  · constructor <;> (split <;> norm_num)

/-- C9 (amended): in the `RankingFactors` record computed by
`calculateRankingFactors`, the six derived factors all lie in [0,1], while
`semanticSimilarity` is the raw similarity passed through with no clamp —
so it lies in [0,1] exactly when the input similarity does. -/
theorem calculateRankingFactors_bounds (mc : MatchCountOracle) (result : SearchResult)
    (query : String) :
    (ResultRankingService.calculateRankingFactors mc result query).semanticSimilarity =
      result.similarity ∧
    (0 ≤ (ResultRankingService.calculateRankingFactors mc result query).titleRelevance ∧
      (ResultRankingService.calculateRankingFactors mc result query).titleRelevance ≤ 1) ∧
    (0 ≤ (ResultRankingService.calculateRankingFactors mc result query).contentQuality ∧
      (ResultRankingService.calculateRankingFactors mc result query).contentQuality ≤ 1) ∧
    (0 ≤ (ResultRankingService.calculateRankingFactors mc result query).documentType ∧
      (ResultRankingService.calculateRankingFactors mc result query).documentType ≤ 1) ∧
    (0 ≤ (ResultRankingService.calculateRankingFactors mc result query).recency ∧
      (ResultRankingService.calculateRankingFactors mc result query).recency ≤ 1) ∧
    (0 ≤ (ResultRankingService.calculateRankingFactors mc result query).sourceReliability ∧
      (ResultRankingService.calculateRankingFactors mc result query).sourceReliability ≤ 1) ∧
    (0 ≤ (ResultRankingService.calculateRankingFactors mc result query).queryAlignment ∧
      (ResultRankingService.calculateRankingFactors mc result query).queryAlignment ≤ 1) :=
  ⟨rfl, calculateTitleRelevance_bounds result.title query,
    calculateContentQuality_bounds (mc.code result.content) (mc.structural result.content)
      result.content,
    calculateDocumentType_bounds result.filename result.content,
    calculateRecency_bounds result.metadata,
    calculateSourceReliability_bounds result.sourceUrl result.filename,
    calculateQueryAlignment_bounds result query⟩

unseal Rat.ofScientific Rat.mul Rat.sub Rat.inv Rat.add in
/-- Counterexample to C9 as stated: a `SearchResult` whose raw similarity
is 2 produces a `RankingFactors` record whose `semanticSimilarity` is 2,
outside [0,1] — the pass-through factor is not clamped. -/
theorem calculateRankingFactors_counterexample :
    1 < (ResultRankingService.calculateRankingFactors zeroCountsOracle unboundedResult
      "q").semanticSimilarity := by decide

/-! ## Refinement decisions (C4, C5, C8) -/

theorem shouldRefineSearch_stop (gapResp : GapLLMResponse) (fuResp : FollowUpLLMResponse)
    (context : RefinementContext) (h : context.iteration ≥ context.maxIterations) :
    (IterativeRefinementService.shouldRefineSearch gapResp fuResp context).shouldRefine = false := by
  unfold IterativeRefinementService.shouldRefineSearch
  rw [if_pos h]

/-- C4: once the iteration counter has reached `maxIterations`,
`shouldRefineSearch` returns the fixed stop record — `shouldRefine` false,
reason "Maximum iterations reached", confidence 1 — for every result set
and regardless of both model-call oracles (neither is consulted). -/
theorem shouldRefineSearch_maxIterations (gapResp : GapLLMResponse)
    (fuResp : FollowUpLLMResponse) (context : RefinementContext)
    (h : context.iteration ≥ context.maxIterations) :
    IterativeRefinementService.shouldRefineSearch gapResp fuResp context =
      { shouldRefine := false
        followUpQueries := []
        gapAnalysis := ⟨[], [], [], [], 1⟩
        refinementReason := "Maximum iterations reached"
        confidence := 1 } := by
  unfold IterativeRefinementService.shouldRefineSearch
  rw [if_pos h]

/-- Witness for C4 at a context with iteration 3 of a maximum of 3. -/
theorem shouldRefineSearch_maxIterations_witness :
    IterativeRefinementService.shouldRefineSearch GapLLMResponse.failed
        FollowUpLLMResponse.failed c4Context =
      { shouldRefine := false
        followUpQueries := []
        gapAnalysis := ⟨[], [], [], [], 1⟩
        refinementReason := "Maximum iterations reached"
        confidence := 1 } :=
  shouldRefineSearch_maxIterations GapLLMResponse.failed FollowUpLLMResponse.failed
    c4Context (by decide)

/-- C5: on an empty result list `analyzeInformationGaps` returns exactly
confidence 0, gaps ["No results found"], missing topics ["All topics"] and
empty remaining lists, for every query and every model-response oracle —
the early return fires before the prompt is built, so no model call is
made. -/
theorem analyzeInformationGaps_empty (resp : GapLLMResponse) (originalQuery : String) :
    IterativeRefinementService.analyzeInformationGaps resp originalQuery [] =
      { informationGaps := ["No results found"]
        missingTopics := ["All topics"]
        ambiguousAreas := []
        needsMoreDetail := []
        confidence := 0 } := rfl

theorem list_filterMap_ext {α β : Type} (f g : α → Option β) (l : List α)
    (h : ∀ a, f a = g a) : l.filterMap f = l.filterMap g := by
  induction l with
  | nil => rfl
  | cons x xs ih => simp only [List.filterMap_cons, h x, ih]

/-- C8 (amended): `generateFollowUpQueries` returns no follow-ups whenever
the gap-analysis confidence exceeds 0.85; otherwise its output on a parsed
array response is exactly the array filtered, in order, to the string
entries that are strictly longer than 10 characters — an
exactly-10-character follow-up is dropped — and whose word-overlap
similarity to every previously used query is at most 0.8; equivalently, a
follow-up is returned precisely when it occurs in the array and passes both
filters. -/
theorem generateFollowUpQueries_filter (resp : FollowUpLLMResponse) (originalQuery : String)
    (gap : GapAnalysis) (prev : List String) (items : List JsonItem) (q : String) :
    (gap.confidence > 0.85 →
      IterativeRefinementService.generateFollowUpQueries resp originalQuery gap prev = []) ∧
    (¬(gap.confidence > 0.85) →
      IterativeRefinementService.generateFollowUpQueries (FollowUpLLMResponse.arr items)
          originalQuery gap prev =
        items.filterMap (fun item =>
          match item with
          | JsonItem.str s =>
            if s.length > 10 ∧ ∀ p ∈ prev,
                IterativeRefinementService.calculateQuerySimilarity (jsToLower s)
                  (jsToLower p) ≤ 0.8 then
              some s
            else none
          | JsonItem.other => none)) ∧
    (¬(gap.confidence > 0.85) →
      (q ∈ IterativeRefinementService.generateFollowUpQueries (FollowUpLLMResponse.arr items)
          originalQuery gap prev ↔
        JsonItem.str q ∈ items ∧ q.length > 10 ∧
          ∀ p ∈ prev, IterativeRefinementService.calculateQuerySimilarity (jsToLower q)
            (jsToLower p) ≤ 0.8)) := by
  have hcond : ∀ s : String,
      ((s.length > 10 &&
        !(prev.any (fun p =>
          decide (IterativeRefinementService.calculateQuerySimilarity (jsToLower s)
            (jsToLower p) > 0.8)))) = true) ↔
      (s.length > 10 ∧ ∀ p ∈ prev,
        IterativeRefinementService.calculateQuerySimilarity (jsToLower s)
          (jsToLower p) ≤ 0.8) := by
    intro s
    rw [Bool.and_eq_true, decide_eq_true_eq, Bool.not_eq_true', List.any_eq_false]
    constructor
    · rintro ⟨h1, h2⟩
      exact ⟨h1, fun p hp => not_lt.mp (by simpa using h2 p hp)⟩
    · rintro ⟨h1, h2⟩
      exact ⟨h1, fun p hp => by simpa using not_lt.mpr (h2 p hp)⟩
  have harr : ¬(gap.confidence > 0.85) →
      IterativeRefinementService.generateFollowUpQueries (FollowUpLLMResponse.arr items)
          originalQuery gap prev =
        items.filterMap (fun item =>
          match item with
          | JsonItem.str s =>
            if s.length > 10 ∧ ∀ p ∈ prev,
                IterativeRefinementService.calculateQuerySimilarity (jsToLower s)
                  (jsToLower p) ≤ 0.8 then
              some s
            else none
          | JsonItem.other => none) := by
    intro h
    unfold IterativeRefinementService.generateFollowUpQueries
    rw [if_neg h]
    exact list_filterMap_ext _ _ items (fun item => by
      cases item with
      | other => rfl
      | str s => exact if_congr (hcond s) rfl rfl)
  refine ⟨?_, harr, ?_⟩
  · intro h
    unfold IterativeRefinementService.generateFollowUpQueries
    rw [if_pos h]
  · intro h
    rw [harr h, List.mem_filterMap]
    constructor
    · rintro ⟨item, hitem, heq⟩
      cases item with
      | other => simp at heq
      | str s =>
        simp only at heq
        split at heq
        · rename_i hc
          rw [Option.some_inj] at heq
          subst heq
          exact ⟨hitem, hc.1, hc.2⟩
        · exact absurd heq (by simp)
    · rintro ⟨hin, hlen, hsim⟩
      refine ⟨JsonItem.str q, hin, ?_⟩
      simp only
      rw [if_pos ⟨hlen, hsim⟩]

unseal Rat.ofScientific Rat.mul Rat.sub Rat.inv Rat.add in
/-- Witness for the amended C8: with confidence 0.5, an 11-plus-character
candidate that overlaps no previous query is retained. -/
theorem generateFollowUpQueries_filter_witness :
    "frappe doctype permissions" ∈ IterativeRefinementService.generateFollowUpQueries
      (FollowUpLLMResponse.arr [JsonItem.str "frappe doctype permissions"]) "q" c8Gap
      ["unrelated topic entirely"] :=
  ((generateFollowUpQueries_filter (FollowUpLLMResponse.arr
      [JsonItem.str "frappe doctype permissions"]) "q" c8Gap
      ["unrelated topic entirely"] [JsonItem.str "frappe doctype permissions"]
      "frappe doctype permissions").2.2 (by decide)).mpr
    ⟨by decide, by decide, by decide⟩

unseal Rat.ofScientific Rat.mul Rat.sub Rat.inv Rat.add in
/-- Counterexample to C8 as stated: a follow-up of exactly 10 characters
("abcdefghij"), with no previous queries to collide with and confidence
0.5, is dropped — the code keeps only candidates with `length > 10`, so an
exactly-10-character follow-up is not retained. -/
theorem generateFollowUpQueries_counterexample :
    ("abcdefghij".length = 10) ∧
    ¬(c8Gap.confidence > 0.85) ∧
    IterativeRefinementService.generateFollowUpQueries
      (FollowUpLLMResponse.arr [JsonItem.str "abcdefghij"]) "q" c8Gap [] = [] := by
  refine ⟨by decide, by decide, by decide⟩

/-! ## Strategy gating (C6) and complexity detection (C7) -/

/-- C6: `generateSearchStrategies` emits a strategy named "troubleshooting"
exactly when `isTroubleshootingQuery` holds — that is, when the lowercased
query contains one of the fourteen troubleshooting keywords (among them
"error") — whatever the decomposition, expansion and variation oracles
return. -/
theorem generateSearchStrategies_troubleshooting_iff (o : StrategyOracles) (query : String) :
    ("troubleshooting" ∈ (MultiQueryService.generateSearchStrategies o query).map
      (fun s => s.name)) ↔ MultiQueryService.isTroubleshootingQuery query = true := by
  unfold MultiQueryService.generateSearchStrategies
  simp only [List.map_append, List.mem_append,
    apply_ite (List.map (fun (s : SearchStrategy) => s.name)),
    apply_ite (fun (l : List String) => "troubleshooting" ∈ l), List.map_cons, List.map_nil]
  constructor
  · rintro ((((h | h) | h) | h) | h) <;> first
      | (split at h <;> simp_all)
      | simp_all
  · intro h
    refine Or.inr ?_
    rw [if_pos h]
    simp

/-- C7 (amended): `isComplexQuery` returns true exactly when the JS word
count exceeds 15 or one of the six indicator patterns matches (the
plurality pattern also covering the words "different" and "all"); any query
of more than 20 words is complex, and a query of at most 15 words matching
no indicator is simple. -/
theorem isComplexQuery_characterization (query : String) :
    (QueryDecompositionService.isComplexQuery query =
      (QueryDecompositionService.wordCountJS query > 15 ||
        (QueryDecompositionService.conjunctionIndicator ((jsToLower query).toList) ||
         QueryDecompositionService.multiStepIndicator ((jsToLower query).toList) ||
         QueryDecompositionService.comparisonIndicator ((jsToLower query).toList) ||
         QueryDecompositionService.pluralityIndicator ((jsToLower query).toList) ||
         matchTwoQuestionMarks query.toList ||
         QueryDecompositionService.explainIndicator ((jsToLower query).toList)))) ∧
    (QueryDecompositionService.wordCountJS query > 20 →
      QueryDecompositionService.isComplexQuery query = true) ∧
    (QueryDecompositionService.wordCountJS query ≤ 15 ∧
        QueryDecompositionService.conjunctionIndicator ((jsToLower query).toList) = false ∧
        QueryDecompositionService.multiStepIndicator ((jsToLower query).toList) = false ∧
        QueryDecompositionService.comparisonIndicator ((jsToLower query).toList) = false ∧
        QueryDecompositionService.pluralityIndicator ((jsToLower query).toList) = false ∧
        matchTwoQuestionMarks query.toList = false ∧
        QueryDecompositionService.explainIndicator ((jsToLower query).toList) = false →
      QueryDecompositionService.isComplexQuery query = false) := by
  refine ⟨rfl, ?_, ?_⟩
  · intro h
    unfold QueryDecompositionService.isComplexQuery
    have : QueryDecompositionService.wordCountJS query > 15 := by omega
    simp [this]
  · rintro ⟨h0, h1, h2, h3, h4, h5, h6⟩
    unfold QueryDecompositionService.isComplexQuery
    simp only [h1, h2, h3, h4, h5, h6]
    simp
    omega

/-- Witness for the amended C7: a query of more than 20 words is complex;
a short query matching no indicator is simple. -/
theorem isComplexQuery_characterization_witness :
    QueryDecompositionService.isComplexQuery
        "how do I create a doctype in frappe so that the form shows a custom field list for every user today" = true ∧
    QueryDecompositionService.isComplexQuery "what is a doctype" = false :=
  ⟨(isComplexQuery_characterization _).2.1 (by decide),
    (isComplexQuery_characterization _).2.2 (by decide)⟩

/-- Counterexample to C7 as stated: "show all users in database" has 5
words, a single clause — no conjunction word, no comparison or multi-step
phrasing, no question marks, no explain/what pattern — yet the code
classifies it complex, because the plurality indicator of the source also
matches the words "different" and "all". -/
theorem isComplexQuery_counterexample :
    QueryDecompositionService.isComplexQuery "show all users in database" = true ∧
    QueryDecompositionService.wordCountJS "show all users in database" = 5 ∧
    QueryDecompositionService.conjunctionIndicator
      ((jsToLower "show all users in database").toList) = false ∧
    QueryDecompositionService.multiStepIndicator
      ((jsToLower "show all users in database").toList) = false ∧
    QueryDecompositionService.comparisonIndicator
      ((jsToLower "show all users in database").toList) = false ∧
    matchTwoQuestionMarks ("show all users in database").toList = false ∧
    QueryDecompositionService.explainIndicator
      ((jsToLower "show all users in database").toList) = false ∧
    QueryDecompositionService.pluralityIndicator
      ((jsToLower "show all users in database").toList) = true := by
  refine ⟨by decide, by decide, by decide, by decide, by decide, by decide, by decide, by decide⟩

/-! ## The refinement loop always reports convergence (C10) -/

theorem jsOrNat_pos (x : Option ℕ) : 1 ≤ IterativeRefinementService.jsOrNat x 3 := by
  cases x with
  | none => norm_num [IterativeRefinementService.jsOrNat]
  | some n =>
    simp only [IterativeRefinementService.jsOrNat]
    split <;> omega

theorem iterLoop_converges (o : IterativeRefinementService.IterativeOracles) (q : String) (maxI : ℕ) (thr : ℚ) :
    ∀ remaining iteration st, 1 ≤ remaining → iteration + remaining = maxI + 1 →
      (IterativeRefinementService.iterLoop o q maxI thr remaining iteration
        st).convergenceReached = true := by
  intro remaining
  induction remaining with
  | zero => exact fun iteration st h1 _ => absurd h1 (by omega)
  | succ n ih =>
    intro iteration st h1 h2
    simp only [IterativeRefinementService.iterLoop]
    by_cases hsr : (IterativeRefinementService.shouldRefineSearch (o.gapResp iteration)
        (o.fuResp iteration)
        { originalQuery := q
          searchResults := st.currentResults
          iteration := iteration
          maxIterations := maxI
          confidenceThreshold := thr
          gapsIdentified := []
          followUpQueries := st.allQueries }).shouldRefine = true
    · have hlt : iteration < maxI := by
        by_contra hge
        rw [shouldRefineSearch_stop _ _ _ (le_of_not_lt hge)] at hsr
        exact absurd hsr (by simp)
      rw [hsr]
      simp only [Bool.not_true, Bool.false_eq_true, if_false]
      split
      · rename_i hcv
        simpa using hcv
      · exact ih (iteration + 1) _ (by omega) (by omega)
    · rw [Bool.not_eq_true] at hsr
      rw [hsr]
      simp

/-- C10: `executeIterativeSearch` always returns `convergenceReached =
true` — for every query, initial result set, oracle behaviour and options
(the effective `maxIterations` is at least 1, and the final loop round
necessarily stops via the unconditional maximum-iterations refusal if
nothing stopped earlier; every loop exit path sets the flag) — so the flag
cannot distinguish genuine result-set convergence from iteration
exhaustion. -/
theorem executeIterativeSearch_convergence (o : IterativeRefinementService.IterativeOracles)
    (originalQuery : String) (initialResults : List RankedResult)
    (options : IterativeRefinementService.IterativeOptions) :
    (IterativeRefinementService.executeIterativeSearch o originalQuery initialResults
      options).convergenceReached = true := by
  simp only [IterativeRefinementService.executeIterativeSearch]
  exact iterLoop_converges o originalQuery _ _ _ 1 _ (jsOrNat_pos options.maxIterations)
    (by omega)

end FrappeDocChat
